import Mathlib

/-!
Verification development for the ssh-mcp connection registry and
per-operation session lifecycle.

The definitions below are a shallow embedding of the TypeScript source:
- `SSHClientManager.loadConnections` / `listConnections` / `getConnectConfig`
  and the per-operation promise executors from the connection-manager module;
- `removeConnectionFromConfig` / `redactConfig` from `src/config.ts`;
- the `remove_connection` handler from `src/handlers.ts`.

JavaScript runtime details are made explicit:
- optional fields are `Option`; JS string truthiness (`if (s)`) is
  "present and non-empty";
- the file system is a parameter (`ex : String → Bool` for `existsSync`,
  `rd : String → String` for `readFileSync`), `homedir()` is a parameter;
- each operation's promise is settled by exactly one terminal callback event,
  modelled by a per-operation event type; the settle functions record both
  the settlement value and whether `client.end()` ran on that path.
-/

namespace SshMcp

/-- Provenance tag of a connection record (`source` field). -/
inductive Source where
  | config
  | env
  | binarylane
deriving DecidableEq, Repr

/-- The `SSHConnection` interface. `port` is optional at runtime (records are
parsed from JSON); `loadConnections` defaults it. -/
structure SSHConnection where
  name : String
  host : String
  port : Option Nat
  username : String
  privateKeyPath : Option String
  password : Option String
  source : Option Source
deriving DecidableEq, Repr

/-- JS truthiness of an optional string: present and non-empty. -/
def truthyStr : Option String → Bool
  | none => false
  | some s => !(s == "")

/-- `s.replace(/^~/, homedir())`: replace one leading tilde with the home
directory. -/
def expandTilde (home s : String) : String :=
  match s.data with
  | c :: rest => if c = '~' then home ++ String.mk rest else s
  | [] => s

/-- `conn.port = conn.port || 22`: absent or zero port becomes 22. -/
def portOrDefault : Option Nat → Nat
  | none => 22
  | some 0 => 22
  | some (n + 1) => n + 1

/-- Acceptance-time mutation of a record inside `loadConnections`:
tilde-expand a truthy `privateKeyPath`, then default the port. -/
def normalizeConn (home : String) (c : SSHConnection) : SSHConnection :=
  let c1 :=
    if truthyStr c.privateKeyPath then
      { c with privateKeyPath := some (expandTilde home (c.privateKeyPath.getD "")) }
    else c
  { c1 with port := some (portOrDefault c1.port) }

/-- `!conn.name || !conn.host || !conn.username` rejection check, positively:
all three fields non-empty. -/
def validConn (c : SSHConnection) : Bool :=
  !(c.name == "") && !(c.host == "") && !(c.username == "")

/-- The `Map<string, SSHConnection>` field, modelled as an insertion-ordered
association list (JS `Map` preserves insertion order for `values()`). -/
abbrev Registry := List (String × SSHConnection)

/-- `this.connections.has(n)`. -/
def hasName (reg : Registry) (n : String) : Bool :=
  reg.any (fun p => p.1 == n)

/-- `this.connections.get(n)` (also `getConnection`). -/
def findConn (reg : Registry) (n : String) : Option SSHConnection :=
  (reg.find? (fun p => p.1 == n)).map (fun p => p.2)

/-- One iteration of `loadConnections`' inner loop: skip an invalid record,
skip a record whose name is claimed, otherwise mutate (normalize) it and
insert it. Returns the updated registry and the possibly-mutated record. -/
def mergeRecord (home : String) (reg : Registry) (c : SSHConnection) :
    Registry × SSHConnection :=
  if validConn c = false then (reg, c)
  else if hasName reg c.name then (reg, c)
  else
    let c2 := normalizeConn home c
    (reg ++ [(c2.name, c2)], c2)

/-- The inner loop over one source list, threading the registry and keeping
the mutated records (the source arrays are mutated in place in JS). -/
def mergeList (home : String) (reg : Registry) :
    List SSHConnection → Registry × List SSHConnection
  | [] => (reg, [])
  | c :: l =>
    let rc := mergeRecord home reg c
    let rl := mergeList home rc.1 l
    (rl.1, rc.2 :: rl.2)

/-- The outer loop over the priority-ordered sources. -/
def mergeSources (home : String) (reg : Registry) :
    List (List SSHConnection) → Registry × List (List SSHConnection)
  | [] => (reg, [])
  | s :: ss =>
    let rs := mergeList home reg s
    let rss := mergeSources home rs.1 ss
    (rss.1, rs.2 :: rss.2)

/-- `loadConnections(sources)`: clear the registry, then merge all sources in
priority order. Returns the new registry and the mutated source lists. -/
def loadConnections (home : String) (sources : List (List SSHConnection)) :
    Registry × List (List SSHConnection) :=
  mergeSources home [] sources

/-- Concatenation of all source lists in priority order. -/
def allRecords : List (List SSHConnection) → List SSHConnection
  | [] => []
  | s :: ss => s ++ allRecords ss

/-- The first record named `n` that passes the validity check. -/
def firstValidNamed (l : List SSHConnection) (n : String) : Option SSHConnection :=
  l.find? (fun c => validConn c && c.name == n)

/-- One element of the `listConnections()` result (projected fields). -/
structure ConnSummary where
  name : String
  host : String
  port : Option Nat
  username : String
  source : Option Source
deriving DecidableEq, Repr

/-- `listConnections()`: project every stored record, in insertion order. -/
def listConnections (reg : Registry) : List ConnSummary :=
  reg.map (fun p =>
    { name := p.2.name
      host := p.2.host
      port := p.2.port
      username := p.2.username
      source := p.2.source })

/-- `homedir()` sanity: non-empty and not itself starting with a tilde
(it is an absolute path at runtime). -/
def goodHome (h : String) : Bool :=
  match h.data with
  | [] => false
  | c :: _ => !(c == '~')

/-- The `ConnectConfig` value built by `getConnectConfig` (the fields this
module assigns). `privateKey` holds the key file contents. -/
structure ConnectConfig where
  host : String
  port : Option Nat
  username : String
  privateKey : Option String := none
  password : Option String := none
deriving DecidableEq, Repr

/-- `getConnectConfig(conn)` with the file system abstracted:
`ex` is `existsSync`, `rd` is `readFileSync`, `home` is `homedir()`.
Thrown errors become `Except.error`. -/
def getConnectConfig (ex : String → Bool) (rd : String → String) (home : String)
    (conn : SSHConnection) : Except String ConnectConfig :=
  let base : ConnectConfig :=
    { host := conn.host, port := conn.port, username := conn.username }
  if truthyStr conn.privateKeyPath then
    let p := conn.privateKeyPath.getD ""
    if ex p then .ok { base with privateKey := some (rd p) }
    else .error ("Private key not found: " ++ p)
  else if truthyStr conn.password then
    .ok { base with password := conn.password }
  else
    let k1 := home ++ "/.ssh/id_ed25519"
    let k2 := home ++ "/.ssh/id_rsa"
    if ex k1 then .ok { base with privateKey := some (rd k1) }
    else if ex k2 then .ok { base with privateKey := some (rd k2) }
    else .error "No authentication method available. Provide privateKeyPath or password."

/-- `runCommand`'s `CommandResult`. -/
structure CommandResult where
  stdout : String
  stderr : String
  code : Nat
deriving DecidableEq, Repr

/-- Terminal callback events of `runCommand`'s promise executor. -/
inductive RCEvent where
  | timeoutFired
  | execErr (msg : String)
  | streamClose (code : Option Nat)
  | errorEvt (msg : String)
  | connectThrow (msg : String)
deriving DecidableEq, Repr

/-- Events on whose handler path `runCommand` does not call `client.end()`. -/
def RCEvent.noExplicitClose : RCEvent → Bool
  | .errorEvt _ => true
  | .connectThrow _ => true
  | _ => false

/-- Observable state of one `runCommand` promise: settlement, whether the
watchdog timer is still armed, and whether `client.end()` has run. -/
structure RCState where
  settled : Option (Except String CommandResult)
  timerArmed : Bool
  clientEnded : Bool
deriving Repr

/-- State at promise construction: watchdog armed (`setTimeout` at line 185),
nothing settled, transport not ended. -/
def rcInit : RCState :=
  { settled := none, timerArmed := true, clientEnded := false }

/-- The watchdog's rejection message. -/
def rcTimeoutMsg (timeoutMs : Nat) : String :=
  "Command timed out after " ++ toString timeoutMs ++ "ms"

/-- One callback firing against the `runCommand` promise. Each branch is the
body of the corresponding handler in the source: the timeout callback runs
only while the timer is armed (`clearTimeout` on every settling path disarms
it); a settled promise ignores later resolutions. -/
def rcStep (timeoutMs : Nat) (stdout stderr : String) (st : RCState) :
    RCEvent → RCState
  | .timeoutFired =>
    if st.timerArmed then
      { settled := some (.error (rcTimeoutMsg timeoutMs))
        timerArmed := false
        clientEnded := true }
    else st
  | .execErr m =>
    if st.settled.isSome then st
    else { settled := some (.error m), timerArmed := false, clientEnded := true }
  | .streamClose code =>
    if st.settled.isSome then st
    else
      { settled := some (.ok { stdout := stdout, stderr := stderr, code := code.getD 0 })
        timerArmed := false
        clientEnded := true }
  | .errorEvt m =>
    if st.settled.isSome then st
    else { settled := some (.error m), timerArmed := false, clientEnded := st.clientEnded }
  | .connectThrow m =>
    if st.settled.isSome then st
    else { settled := some (.error m), timerArmed := false, clientEnded := st.clientEnded }

/-- The promise driven through a whole sequence of callback events. -/
def rcRun (timeoutMs : Nat) (stdout stderr : String) (evs : List RCEvent) : RCState :=
  evs.foldl (rcStep timeoutMs stdout stderr) rcInit

/-- Result shape of `uploadFile` / `downloadFile`. -/
structure TransferResult where
  success : Bool
  message : String
deriving DecidableEq, Repr

/-- Terminal callback events of the SFTP-channel operations
(`uploadFile`, `downloadFile`, `listDirectory`). -/
inductive SftpEvent where
  | sftpErr (msg : String)
  | opErr (msg : String)
  | opOk
  | errorEvt (msg : String)
  | connectThrow (msg : String)
deriving DecidableEq, Repr

/-- Events on whose handler path the SFTP operations do not call
`client.end()`. -/
def SftpEvent.noExplicitClose : SftpEvent → Bool
  | .errorEvt _ => true
  | .connectThrow _ => true
  | _ => false

/-- `uploadFile`'s promise settlement: the result and whether `client.end()`
ran on that path (`sftp` failure and the `fastPut` callback end the client;
the `error` handler and the synchronous connect-config throw do not). -/
def uploadFileSettle (localPath remotePath : String) :
    SftpEvent → Except String TransferResult × Bool
  | .sftpErr m => (.error m, true)
  | .opErr m => (.error m, true)
  | .opOk =>
    (.ok { success := true, message := "Uploaded " ++ localPath ++ " to " ++ remotePath },
     true)
  | .errorEvt m => (.error m, false)
  | .connectThrow m => (.error m, false)

/-- `downloadFile`'s promise settlement (symmetric to `uploadFile`,
via `fastGet`). -/
def downloadFileSettle (remotePath localPath : String) :
    SftpEvent → Except String TransferResult × Bool
  | .sftpErr m => (.error m, true)
  | .opErr m => (.error m, true)
  | .opOk =>
    (.ok { success := true, message := "Downloaded " ++ remotePath ++ " to " ++ localPath },
     true)
  | .errorEvt m => (.error m, false)
  | .connectThrow m => (.error m, false)

/-- Terminal callback events of `readFile`'s promise executor. -/
inductive ReadFileEvent where
  | sftpErr (msg : String)
  | streamEnd
  | streamErr (msg : String)
  | errorEvt (msg : String)
  | connectThrow (msg : String)
deriving DecidableEq, Repr

/-- Events on whose handler path `readFile` does not call `client.end()`. -/
def ReadFileEvent.noExplicitClose : ReadFileEvent → Bool
  | .errorEvt _ => true
  | .connectThrow _ => true
  | _ => false

/-- `readFile`'s promise settlement; `content` is the accumulated stream
data at the terminal event. -/
def readFileSettle (content : String) :
    ReadFileEvent → Except String String × Bool
  | .sftpErr m => (.error m, true)
  | .streamEnd => (.ok content, true)
  | .streamErr m => (.error m, true)
  | .errorEvt m => (.error m, false)
  | .connectThrow m => (.error m, false)

/-- Remote file attributes as delivered by the SFTP `readdir`. -/
structure SftpAttrs where
  isDir : Bool
  isFile : Bool
  size : Nat
  mtime : Nat
deriving DecidableEq, Repr

/-- One raw `readdir` entry. -/
structure SftpEntry where
  filename : String
  attrs : SftpAttrs
deriving DecidableEq, Repr

/-- `listDirectory`'s result entry. -/
structure DirectoryEntry where
  name : String
  type : String
  size : Nat
  modifyTime : Nat
deriving DecidableEq, Repr

/-- The per-entry mapping in `listDirectory` (`mtime * 1000` is the
milliseconds value handed to `new Date`). -/
def toDirectoryEntry (e : SftpEntry) : DirectoryEntry :=
  { name := e.filename
    type :=
      if e.attrs.isDir then "directory"
      else if e.attrs.isFile then "file"
      else "other"
    size := e.attrs.size
    modifyTime := e.attrs.mtime * 1000 }

/-- `listDirectory`'s promise settlement: the `readdir` callback ends the
client before inspecting its error argument. -/
def listDirectorySettle (entries : List SftpEntry) :
    SftpEvent → Except String (List DirectoryEntry) × Bool
  | .sftpErr m => (.error m, true)
  | .opErr m => (.error m, true)
  | .opOk => (.ok (entries.map toDirectoryEntry), true)
  | .errorEvt m => (.error m, false)
  | .connectThrow m => (.error m, false)

/-- `testConnection`'s structured result. -/
structure TestResult where
  success : Bool
  message : String
  latencyMs : Option Nat
deriving DecidableEq, Repr

/-- Terminal callback events of `testConnection`'s promise executor. -/
inductive TCEvent where
  | timeoutFired
  | ready (latencyMs : Nat)
  | errorEvt (msg : String)
  | connectThrow (msg : String)
deriving DecidableEq, Repr

/-- Events on whose handler path `testConnection` does not call
`client.end()`. -/
def TCEvent.noExplicitClose : TCEvent → Bool
  | .errorEvt _ => true
  | .connectThrow _ => true
  | _ => false

/-- Rendering of an optional port in a template string. -/
def portString : Option Nat → String
  | none => "undefined"
  | some n => toString n

/-- `testConnection`'s promise settlement: every terminal event resolves a
structured result (the promise never rejects); the `Bool` records whether
`client.end()` ran on that path. -/
def testConnectionSettle (conn : SSHConnection) : TCEvent → TestResult × Bool
  | .timeoutFired =>
    ({ success := false, message := "Connection timed out", latencyMs := none }, true)
  | .ready l =>
    ({ success := true
       message := "Connected successfully to " ++ conn.host ++ ":" ++ portString conn.port
       latencyMs := some l }, true)
  | .errorEvt m =>
    ({ success := false, message := "Connection failed: " ++ m, latencyMs := none }, false)
  | .connectThrow m =>
    ({ success := false, message := "Configuration error: " ++ m, latencyMs := none }, false)

/-- The whole `testConnection` call: the unknown-name guard throws before the
promise is created; otherwise a failed `getConnectConfig` forces the
synchronous catch path, and any other terminal event resolves structurally. -/
def testConnectionOp (ex : String → Bool) (rd : String → String) (home : String)
    (reg : Registry) (name : String) (ev : TCEvent) : Except String TestResult :=
  match findConn reg name with
  | none => .error ("Unknown connection: " ++ name)
  | some conn =>
    match getConnectConfig ex rd home conn with
    | .error m => .ok (testConnectionSettle conn (.connectThrow m)).1
    | .ok _ => .ok (testConnectionSettle conn ev).1

/-- `BinaryLaneConfig` from `src/config.ts`. -/
structure BinaryLaneConfig where
  enabled : Bool
  apiToken : Option String
  defaultUsername : String
  defaultPrivateKeyPath : Option String
deriving DecidableEq, Repr

/-- `ConnectionConfig` from `src/config.ts`. -/
structure ConnectionConfig where
  name : String
  host : String
  port : Option Nat
  username : String
  privateKeyPath : Option String
  password : Option String
deriving DecidableEq, Repr

/-- `SSHMCPConfig` from `src/config.ts`. -/
structure SSHMCPConfig where
  defaultPrivateKeyPath : Option String
  binarylane : BinaryLaneConfig
  connections : List ConnectionConfig
deriving DecidableEq, Repr

/-- `removeConnectionFromConfig`: `null` (here `none`) if no connection with
that name exists, otherwise the config with that name filtered out. -/
def removeConnectionFromConfig (config : SSHMCPConfig) (name : String) :
    Option SSHMCPConfig :=
  if config.connections.any (fun c => c.name == name) then
    some { config with connections := config.connections.filter (fun c => !(c.name == name)) }
  else none

/-- Observable outcome of the `remove_connection` handler: the reported
success flag, the persisted config, and the in-memory registry. -/
structure RemoveOutcome where
  success : Bool
  config : SSHMCPConfig
  registry : Registry
deriving Repr

/-- The `remove_connection` handler from `src/handlers.ts`: a `null` update
reports not-found and touches nothing; otherwise the updated config is saved
and the registry is rebuilt by `reloadConnections` (abstracted as `reload`). -/
def removeConnectionHandler (reload : SSHMCPConfig → Registry)
    (config : SSHMCPConfig) (reg : Registry) (name : String) : RemoveOutcome :=
  match removeConnectionFromConfig config name with
  | none => { success := false, config := config, registry := reg }
  | some updated => { success := true, config := updated, registry := reload updated }

/-- Per-connection redaction inside `redactConfig`: a truthy password becomes
`***`, a falsy one becomes absent. -/
def redactConn (c : ConnectionConfig) : ConnectionConfig :=
  { c with password := if truthyStr c.password then some "***" else none }

/-- `redactConfig` from `src/config.ts`: redact the BinaryLane API token and
every connection password; all other fields are copied. -/
def redactConfig (config : SSHMCPConfig) : SSHMCPConfig :=
  { config with
    binarylane :=
      { config.binarylane with
        apiToken := if truthyStr config.binarylane.apiToken then some "***" else none }
    connections := config.connections.map redactConn }

/-- The secret-insensitive shape of a connection entry: every field except
the password value, plus the password's truthiness. -/
structure ConnShape where
  name : String
  host : String
  port : Option Nat
  username : String
  privateKeyPath : Option String
  passwordSet : Bool
deriving DecidableEq, Repr

/-- Project a connection entry onto its secret-insensitive shape. -/
def connShape (c : ConnectionConfig) : ConnShape :=
  { name := c.name, host := c.host, port := c.port, username := c.username
    privateKeyPath := c.privateKeyPath, passwordSet := truthyStr c.password }

/-- The secret-insensitive shape of a whole config: every non-secret field,
plus the truthiness of each secret. -/
structure ConfigShape where
  defaultPrivateKeyPath : Option String
  enabled : Bool
  defaultUsername : String
  blDefaultPrivateKeyPath : Option String
  apiTokenSet : Bool
  connections : List ConnShape
deriving DecidableEq, Repr

/-- Project a config onto its secret-insensitive shape. -/
def configShape (config : SSHMCPConfig) : ConfigShape :=
  { defaultPrivateKeyPath := config.defaultPrivateKeyPath
    enabled := config.binarylane.enabled
    defaultUsername := config.binarylane.defaultUsername
    blDefaultPrivateKeyPath := config.binarylane.defaultPrivateKeyPath
    apiTokenSet := truthyStr config.binarylane.apiToken
    connections := config.connections.map connShape }

/-- Rebuild a redacted connection entry from its shape. -/
def rebuildConn (t : ConnShape) : ConnectionConfig :=
  { name := t.name, host := t.host, port := t.port, username := t.username
    privateKeyPath := t.privateKeyPath
    password := if t.passwordSet then some "***" else none }

/-- Well-formedness of the registry as built by the merge: stored keys are
pairwise distinct, and every stored record's `name` equals its key. -/
def goodReg (reg : Registry) : Prop :=
  (reg.map (fun p => p.1)).Nodup ∧ ∀ p ∈ reg, p.2.name = p.1

/-- Invariant of the `runCommand` promise machine: the watchdog is only ever
disarmed by a settling path, so a disarmed timer means a settled promise. -/
def rcInv (st : RCState) : Prop :=
  st.timerArmed = false → st.settled.isSome = true

/-! ## Helper lemmas about options, strings and the registry -/

lemma or_of_isSome {α : Type} {a : Option α} (b : Option α) (h : a.isSome = true) :
    a.or b = a := by
  cases a with
  | none => simp at h
  | some x => rfl

lemma or_none_right {α : Type} (a : Option α) : a.or none = a := by
  cases a <;> rfl

lemma findConn_nil (n : String) : findConn [] n = none := rfl

lemma findConn_isSome (reg : Registry) (n : String) :
    (findConn reg n).isSome = hasName reg n := by
  induction reg with
  | nil => rfl
  | cons p l ih =>
    simp only [findConn, hasName] at ih ⊢
    rw [List.find?_cons]
    by_cases h : (p.1 == n) = true
    · simp [h]
    · have h' : (p.1 == n) = false := by simp_all
      simp only [h', List.any_cons, Bool.false_or]
      exact ih

lemma hasName_false_iff (reg : Registry) (n : String) :
    hasName reg n = false ↔ findConn reg n = none := by
  rw [← findConn_isSome]
  cases findConn reg n <;> simp

lemma findConn_append (a b : Registry) (n : String) :
    findConn (a ++ b) n = (findConn a n).or (findConn b n) := by
  simp only [findConn, List.find?_append]
  cases a.find? (fun p => p.1 == n) <;> rfl

lemma findConn_singleton (k : String) (v : SSHConnection) (n : String) :
    findConn [(k, v)] n = if (k == n) = true then some v else none := by
  simp only [findConn, List.find?_cons, List.find?_nil]
  by_cases h : (k == n) = true
  · simp [h]
  · have h' : (k == n) = false := by simp_all
    simp [h']

lemma firstValidNamed_cons (c : SSHConnection) (l : List SSHConnection) (n : String) :
    firstValidNamed (c :: l) n =
      if (validConn c && (c.name == n)) = true then some c else firstValidNamed l n := by
  simp only [firstValidNamed, List.find?_cons]
  by_cases h : (validConn c && (c.name == n)) = true
  · simp [h]
  · have h' : (validConn c && (c.name == n)) = false := by simp_all
    simp [h']

lemma normalizeConn_name (home : String) (c : SSHConnection) :
    (normalizeConn home c).name = c.name := by
  unfold normalizeConn
  by_cases h : truthyStr c.privateKeyPath = true <;> simp [h]

lemma normalizeConn_host (home : String) (c : SSHConnection) :
    (normalizeConn home c).host = c.host := by
  unfold normalizeConn
  by_cases h : truthyStr c.privateKeyPath = true <;> simp [h]

lemma normalizeConn_username (home : String) (c : SSHConnection) :
    (normalizeConn home c).username = c.username := by
  unfold normalizeConn
  by_cases h : truthyStr c.privateKeyPath = true <;> simp [h]

lemma normalizeConn_source (home : String) (c : SSHConnection) :
    (normalizeConn home c).source = c.source := by
  unfold normalizeConn
  by_cases h : truthyStr c.privateKeyPath = true <;> simp [h]

lemma normalizeConn_port (home : String) (c : SSHConnection) :
    (normalizeConn home c).port = some (portOrDefault c.port) := by
  unfold normalizeConn
  by_cases h : truthyStr c.privateKeyPath = true <;> simp [h]

lemma validConn_normalizeConn (home : String) (c : SSHConnection) :
    validConn (normalizeConn home c) = validConn c := by
  unfold validConn
  rw [normalizeConn_name, normalizeConn_host, normalizeConn_username]

/-- Full characterization of one source list's merge loop: a name resolves to
what the incoming registry already held, or else to the first valid record of
that name in the list, normalized. -/
lemma findConn_mergeList (home : String) (l : List SSHConnection) (reg : Registry)
    (n : String) :
    findConn (mergeList home reg l).1 n =
      (findConn reg n).or ((firstValidNamed l n).map (normalizeConn home)) := by
  induction l generalizing reg with
  | nil =>
    simp only [mergeList, firstValidNamed, List.find?_nil, Option.map_none']
    exact (or_none_right _).symm
  | cons c l ih =>
    by_cases hv : validConn c = true
    · by_cases hn : hasName reg c.name = true
      · have hrec : mergeRecord home reg c = (reg, c) := by
          simp [mergeRecord, hv, hn]
        simp only [mergeList, hrec]
        rw [ih, firstValidNamed_cons]
        by_cases he : (c.name == n) = true
        · have hcn : c.name = n := by simpa using he
          have hs : (findConn reg n).isSome = true := by
            rw [findConn_isSome, ← hcn]; exact hn
          have hif :
              (if (validConn c && (c.name == n)) = true then some c
               else firstValidNamed l n) = some c := by
            simp [hv, he]
          rw [hif, Option.map_some']
          rw [or_of_isSome _ hs, or_of_isSome _ hs]
        · simp [hv, he]
      · have hn' : hasName reg c.name = false := by simp_all
        have hrec : mergeRecord home reg c =
            (reg ++ [((normalizeConn home c).name, normalizeConn home c)],
             normalizeConn home c) := by
          simp [mergeRecord, hv, hn']
        simp only [mergeList, hrec]
        rw [ih, findConn_append, firstValidNamed_cons, findConn_singleton,
          normalizeConn_name]
        by_cases he : (c.name == n) = true
        · have hcn : c.name = n := by simpa using he
          have hnone : findConn reg n = none := by
            rw [← hcn]; exact (hasName_false_iff reg c.name).mp hn'
          simp [hv, he, hnone, Option.or]
        · have he' : (c.name == n) = false := by simp_all
          simp [he', or_none_right]
    · have hv' : validConn c = false := by simp_all
      have hrec : mergeRecord home reg c = (reg, c) := by
        simp [mergeRecord, hv']
      simp only [mergeList, hrec]
      rw [ih, firstValidNamed_cons]
      simp [hv']

lemma firstValidNamed_append (a b : List SSHConnection) (n : String) :
    firstValidNamed (a ++ b) n = (firstValidNamed a n).or (firstValidNamed b n) := by
  simp [firstValidNamed, List.find?_append]

/-- Lift of `findConn_mergeList` to the outer loop over all sources. -/
lemma findConn_mergeSources (home : String) (L : List (List SSHConnection))
    (reg : Registry) (n : String) :
    findConn (mergeSources home reg L).1 n =
      (findConn reg n).or ((firstValidNamed (allRecords L) n).map (normalizeConn home)) := by
  induction L generalizing reg with
  | nil =>
    simp only [mergeSources, allRecords, firstValidNamed, List.find?_nil,
      Option.map_none']
    exact (or_none_right _).symm
  | cons s ss ih =>
    simp only [mergeSources, allRecords]
    rw [ih, findConn_mergeList, firstValidNamed_append]
    cases findConn reg n <;> cases firstValidNamed s n <;> rfl

/-- The registry built by `loadConnections` resolves each name to the first
valid record of that name across all sources, in priority order, normalized
at acceptance time. -/
lemma findConn_loadConnections (home : String) (sources : List (List SSHConnection))
    (n : String) :
    findConn (loadConnections home sources).1 n =
      (firstValidNamed (allRecords sources) n).map (normalizeConn home) := by
  unfold loadConnections
  rw [findConn_mergeSources]
  rfl

/-! ## Claims -/

/-- C7: during the merge, a record is accepted if and only if it has
non-empty name, host and username and no earlier (higher-priority or
earlier-in-source) valid record claimed its name: the registry resolves each
name to the first valid record of that name across the concatenated sources,
normalized at acceptance time; normalization defaults an absent or zero port
to 22 and keeps a present non-zero port, and tilde-expands a present
non-empty private-key path. -/
theorem merge_acceptance_characterization :
    (∀ (home : String) (sources : List (List SSHConnection)) (n : String),
      findConn (loadConnections home sources).1 n =
        (firstValidNamed (allRecords sources) n).map (normalizeConn home)) ∧
    (∀ (home : String) (c : SSHConnection),
      c.port = none ∨ c.port = some 0 → (normalizeConn home c).port = some 22) ∧
    (∀ (home : String) (c : SSHConnection) (p : Nat),
      c.port = some p → p ≠ 0 → (normalizeConn home c).port = some p) ∧
    (∀ (home : String) (c : SSHConnection) (p : String),
      c.privateKeyPath = some p → p ≠ "" →
        (normalizeConn home c).privateKeyPath = some (expandTilde home p)) := by
  refine ⟨findConn_loadConnections, ?_, ?_, ?_⟩
  · intro home c h
    rw [normalizeConn_port]
    rcases h with h | h <;> rw [h] <;> rfl
  · intro home c p hp hnz
    rw [normalizeConn_port, hp]
    cases p with
    | zero => exact absurd rfl hnz
    | succ k => rfl
  · intro home c p hp hne
    have ht : truthyStr (some p) = true := by
      simp [truthyStr, hne]
    unfold normalizeConn
    simp [hp, ht]

/-- C7 witness: a record with absent port and tilde key path, merged under
home directory `/home/u`, resolves with port 22 and the expanded path. -/
theorem merge_acceptance_characterization_witness :
    (normalizeConn "/home/u"
      { name := "x", host := "h", port := none, username := "u",
        privateKeyPath := some "~/.ssh/id_rsa", password := none,
        source := some Source.config }).port = some 22 ∧
    (normalizeConn "/home/u"
      { name := "x", host := "h", port := none, username := "u",
        privateKeyPath := some "~/.ssh/id_rsa", password := none,
        source := some Source.config }).privateKeyPath = some "/home/u/.ssh/id_rsa" := by
  constructor
  · exact merge_acceptance_characterization.2.1 "/home/u" _ (Or.inl rfl)
  · have h := merge_acceptance_characterization.2.2.2 "/home/u"
      { name := "x", host := "h", port := none, username := "u",
        privateKeyPath := some "~/.ssh/id_rsa", password := none,
        source := some Source.config } "~/.ssh/id_rsa" rfl (by decide)
    rw [h]
    rfl

/-- C3 counterexample: the claim "the registry resolves x to exactly S1's
record for x, verbatim" fails. First, if S1's record named "x" is invalid
(empty host), it is skipped and S2's record wins, so S2's definition is not
discarded. Second, even a valid S1 record is not stored verbatim: an absent
port is rewritten to 22. -/
theorem priority_merge_verbatim_counterexample :
    (findConn (loadConnections "/home/u"
        [[{ name := "x", host := "", port := some 22, username := "u",
            privateKeyPath := none, password := none, source := some Source.config }],
         [{ name := "x", host := "h2", port := some 22, username := "u2",
            privateKeyPath := none, password := none, source := some Source.env }]]).1 "x" =
      some { name := "x", host := "h2", port := some 22, username := "u2",
             privateKeyPath := none, password := none, source := some Source.env }) ∧
    (findConn (loadConnections "/home/u"
        [[{ name := "y", host := "h", port := none, username := "u",
            privateKeyPath := none, password := none, source := some Source.config }],
         []]).1 "y" ≠
      some { name := "y", host := "h", port := none, username := "u",
             privateKeyPath := none, password := none, source := some Source.config }) := by
  constructor
  · rfl
  · decide

/-- C3 (amended): if the higher-priority source S1 contains a valid record
named x (non-empty name, host, username), then after
`loadConnections([S1, S2])` the registry resolves x to exactly the first such
S1 record, normalized at acceptance (port defaulted, tilde expanded) and
verbatim in every other field; S2's definition of x is discarded entirely,
with no field-level merging. -/
theorem priority_merge_first_source_wins (home : String)
    (S1 S2 : List SSHConnection) (n : String) (r : SSHConnection)
    (h : firstValidNamed S1 n = some r) :
    findConn (loadConnections home [S1, S2]).1 n = some (normalizeConn home r) := by
  rw [findConn_loadConnections]
  have : allRecords [S1, S2] = S1 ++ (S2 ++ []) := rfl
  rw [this, firstValidNamed_append, h]
  rfl

/-- C3 witness: a concrete two-source merge where both sources define "x";
the higher-priority record wins. -/
theorem priority_merge_first_source_wins_witness :
    findConn (loadConnections "/home/u"
      [[{ name := "x", host := "h1", port := some 22, username := "u1",
          privateKeyPath := none, password := none, source := some Source.config }],
       [{ name := "x", host := "h2", port := some 22, username := "u2",
          privateKeyPath := none, password := none, source := some Source.env }]]).1 "x" =
      some (normalizeConn "/home/u"
        { name := "x", host := "h1", port := some 22, username := "u1",
          privateKeyPath := none, password := none, source := some Source.config }) :=
  priority_merge_first_source_wins "/home/u" _ _ "x" _ (by decide)

lemma goodReg_nil : goodReg ([] : Registry) := by
  constructor
  · exact List.nodup_nil
  · intro p hp; cases hp

lemma goodReg_mergeRecord (home : String) (reg : Registry) (c : SSHConnection)
    (hg : goodReg reg) : goodReg (mergeRecord home reg c).1 := by
  by_cases hv : validConn c = false
  · have h : mergeRecord home reg c = (reg, c) := by simp [mergeRecord, hv]
    rw [h]; exact hg
  · by_cases hn : hasName reg c.name = true
    · have h : mergeRecord home reg c = (reg, c) := by simp [mergeRecord, hv, hn]
      rw [h]; exact hg
    · have hn' : hasName reg c.name = false := by simp_all
      have hmr : mergeRecord home reg c =
          (reg ++ [((normalizeConn home c).name, normalizeConn home c)],
           normalizeConn home c) := by
        simp [mergeRecord, hv, hn']
      rw [hmr]
      have hnotin : (normalizeConn home c).name ∉ reg.map (fun p => p.1) := by
        rw [normalizeConn_name]
        intro hmem
        rcases List.mem_map.mp hmem with ⟨p, hp, hpeq⟩
        have : hasName reg c.name = true := by
          rw [hasName, List.any_eq_true]
          exact ⟨p, hp, by simp [hpeq]⟩
        simp_all
      constructor
      · rw [List.map_append, List.nodup_append]
        refine ⟨hg.1, by simp, ?_⟩
        intro a ha hb
        simp only [List.map_cons, List.map_nil, List.mem_singleton] at hb
        subst hb
        exact hnotin ha
      · intro p hp
        rcases List.mem_append.mp hp with h1 | h1
        · exact hg.2 p h1
        · simp only [List.mem_singleton] at h1
          subst h1; rfl

lemma goodReg_mergeList (home : String) (l : List SSHConnection) (reg : Registry)
    (hg : goodReg reg) : goodReg (mergeList home reg l).1 := by
  induction l generalizing reg with
  | nil => exact hg
  | cons c l ih =>
    simp only [mergeList]
    exact ih _ (goodReg_mergeRecord home reg c hg)

lemma goodReg_mergeSources (home : String) (L : List (List SSHConnection))
    (reg : Registry) (hg : goodReg reg) : goodReg (mergeSources home reg L).1 := by
  induction L generalizing reg with
  | nil => exact hg
  | cons s ss ih =>
    simp only [mergeSources]
    exact ih _ (goodReg_mergeList home s reg hg)

/-- C9: after any merge, the listing contains no two records with equal
name — for every input source lists, `listConnections()` is pairwise
distinct on `name`. -/
theorem merge_name_uniqueness (home : String) (sources : List (List SSHConnection)) :
    List.Pairwise (fun a b => a.name ≠ b.name)
      (listConnections (loadConnections home sources).1) := by
  have hg : goodReg (loadConnections home sources).1 :=
    goodReg_mergeSources home sources [] goodReg_nil
  unfold listConnections
  rw [List.pairwise_map]
  have hkeys : List.Pairwise (fun p q : String × SSHConnection => p.1 ≠ q.1)
      (loadConnections home sources).1 := by
    have h := hg.1
    unfold List.Nodup at h
    rwa [List.pairwise_map] at h
  refine hkeys.imp_of_mem ?_
  intro a b ha hb hne
  simp only [ne_eq]
  rw [hg.2 a ha, hg.2 b hb]
  exact hne

lemma string_eq_empty_iff (s : String) : s = "" ↔ s.data = [] := by
  cases s with
  | mk l =>
    constructor
    · intro h; rw [h]
    · intro h; rw [show l = [] from h]

lemma expandTilde_idem (home : String) (hh : goodHome home = true) (s : String) :
    expandTilde home (expandTilde home s) = expandTilde home s := by
  rcases hd : home.data with _ | ⟨c0, t0⟩
  · simp [goodHome, hd] at hh
  · have hc0 : (c0 == '~') = false := by
      have := hh
      simp only [goodHome, hd] at this
      simpa using this
    have hc0' : ¬ c0 = '~' := by simpa using hc0
    rcases hs : s.data with _ | ⟨c, rest⟩
    · have h1 : expandTilde home s = s := by simp [expandTilde, hs]
      rw [h1, h1]
    · by_cases hc : c = '~'
      · have h1 : expandTilde home s = home ++ String.mk rest := by
          simp [expandTilde, hs, hc]
        rw [h1]
        have hdata : (home ++ String.mk rest).data = c0 :: (t0 ++ rest) := by
          rw [String.data_append, hd]; rfl
        simp [expandTilde, hdata, hc0']
      · have h1 : expandTilde home s = s := by simp [expandTilde, hs, hc]
        rw [h1, h1]

lemma expandTilde_ne_empty (home : String) (hh : goodHome home = true)
    (s : String) (hs : ¬ s = "") : ¬ expandTilde home s = "" := by
  rcases hd : home.data with _ | ⟨c0, t0⟩
  · simp [goodHome, hd] at hh
  · rcases hsd : s.data with _ | ⟨c, rest⟩
    · exact absurd ((string_eq_empty_iff s).mpr hsd) hs
    · by_cases hc : c = '~'
      · have h1 : expandTilde home s = home ++ String.mk rest := by
          simp [expandTilde, hsd, hc]
        rw [h1]
        intro he
        have := (string_eq_empty_iff _).mp he
        rw [String.data_append, hd] at this
        exact List.cons_ne_nil _ _ this
      · have h1 : expandTilde home s = s := by simp [expandTilde, hsd, hc]
        rw [h1]; exact hs

lemma portOrDefault_idem (o : Option Nat) :
    portOrDefault (some (portOrDefault o)) = portOrDefault o := by
  rcases o with _ | ⟨_ | n⟩ <;> rfl

lemma normalizeConn_eq_of_falsy (home : String) (c : SSHConnection)
    (ht : truthyStr c.privateKeyPath = false) :
    normalizeConn home c = { c with port := some (portOrDefault c.port) } := by
  unfold normalizeConn
  simp [ht]

lemma normalizeConn_eq_of_truthy (home : String) (c : SSHConnection) (p : String)
    (hp : c.privateKeyPath = some p) (hne : ¬ p = "") :
    normalizeConn home c =
      { c with privateKeyPath := some (expandTilde home p),
               port := some (portOrDefault c.port) } := by
  unfold normalizeConn
  simp [hp, truthyStr, hne]

lemma normalizeConn_idem (home : String) (hh : goodHome home = true)
    (c : SSHConnection) :
    normalizeConn home (normalizeConn home c) = normalizeConn home c := by
  by_cases ht : truthyStr c.privateKeyPath = true
  · rcases hpk : c.privateKeyPath with _ | p
    · rw [hpk] at ht; simp [truthyStr] at ht
    · have hne : ¬ p = "" := by
        rw [hpk] at ht; simpa [truthyStr] using ht
      have hq : ¬ expandTilde home p = "" := expandTilde_ne_empty home hh p hne
      rw [normalizeConn_eq_of_truthy home c p hpk hne]
      rw [normalizeConn_eq_of_truthy home _ (expandTilde home p) rfl hq]
      simp [expandTilde_idem home hh, portOrDefault_idem]
  · have ht' : truthyStr c.privateKeyPath = false := by simp_all
    rw [normalizeConn_eq_of_falsy home c ht']
    rw [normalizeConn_eq_of_falsy home _ (by simpa using ht')]
    simp [portOrDefault_idem]

lemma mergeRecord_replay (home : String) (hh : goodHome home = true)
    (reg : Registry) (c : SSHConnection) :
    mergeRecord home reg (mergeRecord home reg c).2 = mergeRecord home reg c := by
  by_cases hv : validConn c = false
  · have h : mergeRecord home reg c = (reg, c) := by simp [mergeRecord, hv]
    rw [h]
    exact h
  · by_cases hn : hasName reg c.name = true
    · have h : mergeRecord home reg c = (reg, c) := by simp [mergeRecord, hv, hn]
      rw [h]
      exact h
    · have hn' : hasName reg c.name = false := by simp_all
      have hmr : mergeRecord home reg c =
          (reg ++ [((normalizeConn home c).name, normalizeConn home c)],
           normalizeConn home c) := by
        simp [mergeRecord, hv, hn']
      rw [hmr]
      have hv2 : validConn (normalizeConn home c) = false ↔ False := by
        rw [validConn_normalizeConn]
        simp_all
      simp only [mergeRecord, normalizeConn_name, hn',
        normalizeConn_idem home hh, hv2]
      simp [hn']

lemma mergeList_replay (home : String) (hh : goodHome home = true)
    (l : List SSHConnection) (reg : Registry) :
    mergeList home reg (mergeList home reg l).2 = mergeList home reg l := by
  induction l generalizing reg with
  | nil => rfl
  | cons c l ih =>
    simp only [mergeList]
    rw [mergeRecord_replay home hh reg c, ih]

lemma mergeSources_replay (home : String) (hh : goodHome home = true)
    (L : List (List SSHConnection)) (reg : Registry) :
    mergeSources home reg (mergeSources home reg L).2 = mergeSources home reg L := by
  induction L generalizing reg with
  | nil => rfl
  | cons s ss ih =>
    simp only [mergeSources]
    rw [mergeList_replay home hh s reg, ih]

/-- C8: the merge is idempotent even though accepted records are mutated in
place (tilde-expanded and port-defaulted): running `loadConnections` again on
the (mutated) source lists reproduces exactly the same registry and source
state, provided the home directory is non-empty and does not itself start
with a tilde (true of the absolute path `homedir()` returns). -/
theorem merge_idempotent (home : String) (sources : List (List SSHConnection))
    (hh : goodHome home = true) :
    loadConnections home (loadConnections home sources).2 =
      loadConnections home sources := by
  unfold loadConnections
  exact mergeSources_replay home hh sources []

/-- C8 witness: a concrete reload with a tilde key path and defaulted port,
replayed under home directory `/home/u`. -/
theorem merge_idempotent_witness :
    loadConnections "/home/u"
        ((loadConnections "/home/u"
          [[{ name := "x", host := "h", port := none, username := "u",
              privateKeyPath := some "~/.ssh/id_ed25519", password := none,
              source := some Source.config }],
           [{ name := "x", host := "h2", port := some 2222, username := "u2",
              privateKeyPath := none, password := some "pw",
              source := some Source.env }]]).2) =
      loadConnections "/home/u"
        [[{ name := "x", host := "h", port := none, username := "u",
            privateKeyPath := some "~/.ssh/id_ed25519", password := none,
            source := some Source.config }],
         [{ name := "x", host := "h2", port := some 2222, username := "u2",
            privateKeyPath := none, password := some "pw",
            source := some Source.env }]] :=
  merge_idempotent "/home/u" _ (by decide)

lemma rcStep_settled_mono (t : Nat) (so se : String) (st : RCState) (ev : RCEvent)
    (h : st.settled.isSome = true) :
    ((rcStep t so se st ev).settled).isSome = true := by
  cases ev with
  | timeoutFired =>
    by_cases ha : st.timerArmed = true <;> simp [rcStep, ha, h]
  | execErr m => simp [rcStep, h]
  | streamClose c => simp [rcStep, h]
  | errorEvt m => simp [rcStep, h]
  | connectThrow m => simp [rcStep, h]

lemma rcFoldl_settled_mono (t : Nat) (so se : String) (evs : List RCEvent)
    (st : RCState) (h : st.settled.isSome = true) :
    ((List.foldl (rcStep t so se) st evs).settled).isSome = true := by
  induction evs generalizing st with
  | nil => exact h
  | cons e evs ih =>
    simp only [List.foldl_cons]
    exact ih _ (rcStep_settled_mono t so se st e h)

lemma rcStep_cases (t : Nat) (so se : String) (st : RCState) (ev : RCEvent) :
    rcStep t so se st ev = st ∨ ((rcStep t so se st ev).settled).isSome = true := by
  cases ev with
  | timeoutFired =>
    by_cases ha : st.timerArmed = true
    · right; simp [rcStep, ha]
    · left; simp [rcStep, ha]
  | execErr m =>
    by_cases hs : st.settled.isSome = true
    · left; simp [rcStep, hs]
    · right; simp [rcStep, hs]
  | streamClose c =>
    by_cases hs : st.settled.isSome = true
    · left; simp [rcStep, hs]
    · right; simp [rcStep, hs]
  | errorEvt m =>
    by_cases hs : st.settled.isSome = true
    · left; simp [rcStep, hs]
    · right; simp [rcStep, hs]
  | connectThrow m =>
    by_cases hs : st.settled.isSome = true
    · left; simp [rcStep, hs]
    · right; simp [rcStep, hs]

lemma rcStep_inv (t : Nat) (so se : String) (st : RCState) (ev : RCEvent)
    (h : rcInv st) : rcInv (rcStep t so se st ev) := by
  rcases rcStep_cases t so se st ev with he | hs
  · rw [he]; exact h
  · intro _; exact hs

lemma rc_settles_of_timeout (t : Nat) (so se : String) (evs : List RCEvent) :
    ∀ st : RCState, rcInv st → RCEvent.timeoutFired ∈ evs →
      ((List.foldl (rcStep t so se) st evs).settled).isSome = true := by
  induction evs with
  | nil => intro st _ h; cases h
  | cons e evs ih =>
    intro st hinv hmem
    rcases List.mem_cons.mp hmem with he | he
    · subst he
      simp only [List.foldl_cons]
      apply rcFoldl_settled_mono
      by_cases ha : st.timerArmed = true
      · simp [rcStep, ha]
      · have ha' : st.timerArmed = false := by simp_all
        have hs := hinv ha'
        simp [rcStep, ha, hs]
    · simp only [List.foldl_cons]
      exact ih _ (rcStep_inv t so se st e hinv) he

/-- C4: in the discrete event model of `runCommand`'s promise, (1) whenever
the watchdog fires the call is settled by that point — it never hangs past
the timeout event, which the runtime delivers T milliseconds after arming;
(2) if the watchdog fires while the session is still unsettled, the call is
rejected with the timed-out error and the transport is forcibly closed
(`client.end()`); (3) normal completion (`stream close`) disarms the
watchdog immediately and resolves the command result. -/
theorem runCommand_watchdog :
    (∀ (t : Nat) (so se : String) (evs : List RCEvent),
      RCEvent.timeoutFired ∈ evs → ((rcRun t so se evs).settled).isSome = true) ∧
    (∀ (t : Nat) (so se : String) (st : RCState), st.timerArmed = true →
      rcStep t so se st RCEvent.timeoutFired =
        { settled := some (Except.error (rcTimeoutMsg t)),
          timerArmed := false, clientEnded := true }) ∧
    (∀ (t : Nat) (so se : String) (st : RCState) (code : Option Nat),
      st.settled = none →
      (rcStep t so se st (RCEvent.streamClose code)).timerArmed = false ∧
      (rcStep t so se st (RCEvent.streamClose code)).settled =
        some (Except.ok { stdout := so, stderr := se, code := code.getD 0 })) := by
  refine ⟨?_, ?_, ?_⟩
  · intro t so se evs hmem
    apply rc_settles_of_timeout t so se evs rcInit _ hmem
    intro h
    simp [rcInit] at h
  · intro t so se st ha
    simp [rcStep, ha]
  · intro t so se st code hs
    simp [rcStep, hs]

/-- C4 witness: the watchdog firing first on a freshly armed session settles
it with the timed-out error and an ended client; a normal stream close on a
fresh session disarms the timer. -/
theorem runCommand_watchdog_witness :
    ((rcRun 30000 "" "" [RCEvent.timeoutFired]).settled).isSome = true ∧
    rcStep 30000 "" "" rcInit RCEvent.timeoutFired =
      { settled := some (Except.error (rcTimeoutMsg 30000)),
        timerArmed := false, clientEnded := true } ∧
    (rcStep 30000 "out" "err" rcInit (RCEvent.streamClose (some 0))).timerArmed = false :=
  ⟨runCommand_watchdog.1 30000 "" "" [RCEvent.timeoutFired] (List.mem_singleton.mpr rfl),
   runCommand_watchdog.2.1 30000 "" "" rcInit rfl,
   (runCommand_watchdog.2.2 30000 "out" "err" rcInit (some 0) rfl).1⟩

/-- C2 counterexample: `uploadFile`'s `error`-event handler rejects the call
without calling `client.end()` — the call completes on this terminal
network-error transition with the transport handle not explicitly released,
so teardown is not unconditional on every terminal transition. -/
theorem teardown_unconditional_counterexample :
    uploadFileSettle "/tmp/a" "/tmp/b" (SftpEvent.errorEvt "connect ECONNREFUSED") =
      (Except.error "connect ECONNREFUSED", false) := rfl

/-- C2 (amended): for every remote operation and every terminal outcome of
its session other than a transport `error` event or the synchronous
connect-config throw, `client.end()` runs before the call completes —
teardown is explicit on the success, remote-error and timeout transitions;
on the `error`-event and connect-throw transitions the call completes
without an explicit close (release is left to the transport library). -/
theorem teardown_on_terminal_transitions :
    (∀ (t : Nat) (so se : String) (st : RCState) (ev : RCEvent),
      st.settled = none → st.timerArmed = true → ev.noExplicitClose = false →
      (rcStep t so se st ev).clientEnded = true) ∧
    (∀ (lp rp : String) (ev : SftpEvent), ev.noExplicitClose = false →
      (uploadFileSettle lp rp ev).2 = true) ∧
    (∀ (rp lp : String) (ev : SftpEvent), ev.noExplicitClose = false →
      (downloadFileSettle rp lp ev).2 = true) ∧
    (∀ (content : String) (ev : ReadFileEvent), ev.noExplicitClose = false →
      (readFileSettle content ev).2 = true) ∧
    (∀ (entries : List SftpEntry) (ev : SftpEvent), ev.noExplicitClose = false →
      (listDirectorySettle entries ev).2 = true) ∧
    (∀ (conn : SSHConnection) (ev : TCEvent), ev.noExplicitClose = false →
      (testConnectionSettle conn ev).2 = true) := by
  refine ⟨?_, ?_, ?_, ?_, ?_, ?_⟩
  · intro t so se st ev hs ha hnc
    cases ev with
    | timeoutFired => simp [rcStep, ha]
    | execErr m => simp [rcStep, hs]
    | streamClose c => simp [rcStep, hs]
    | errorEvt m => simp [RCEvent.noExplicitClose] at hnc
    | connectThrow m => simp [RCEvent.noExplicitClose] at hnc
  · intro lp rp ev hnc
    cases ev <;> first
      | rfl
      | simp [SftpEvent.noExplicitClose] at hnc
  · intro rp lp ev hnc
    cases ev <;> first
      | rfl
      | simp [SftpEvent.noExplicitClose] at hnc
  · intro content ev hnc
    cases ev <;> first
      | rfl
      | simp [ReadFileEvent.noExplicitClose] at hnc
  · intro entries ev hnc
    cases ev <;> first
      | rfl
      | simp [SftpEvent.noExplicitClose] at hnc
  · intro conn ev hnc
    cases ev <;> first
      | rfl
      | simp [TCEvent.noExplicitClose] at hnc

/-- C2 witness: concrete teardown-performing transitions — an upload success,
a download SFTP-channel failure, and a `testConnection` timeout all end the
client. -/
theorem teardown_on_terminal_transitions_witness :
    (uploadFileSettle "/tmp/a" "/tmp/b" SftpEvent.opOk).2 = true ∧
    (downloadFileSettle "/r" "/l" (SftpEvent.sftpErr "boom")).2 = true ∧
    (testConnectionSettle
      { name := "x", host := "h", port := some 22, username := "u",
        privateKeyPath := none, password := none, source := none }
      TCEvent.timeoutFired).2 = true :=
  ⟨teardown_on_terminal_transitions.2.1 "/tmp/a" "/tmp/b" SftpEvent.opOk rfl,
   teardown_on_terminal_transitions.2.2.1 "/r" "/l" (SftpEvent.sftpErr "boom") rfl,
   teardown_on_terminal_transitions.2.2.2.2.2 _ TCEvent.timeoutFired rfl⟩

/-- C1 counterexample: `testConnection` does not resolve a structured result
for a name absent from the registry — it throws the unknown-connection
error before the probe promise is ever created. -/
theorem testConnection_unknown_throws_counterexample :
    testConnectionOp (fun _ => false) (fun _ => "") "/home/u" [] "web1"
        TCEvent.timeoutFired =
      Except.error "Unknown connection: web1" := rfl

/-- C1 (amended): for every connection name present in the registry,
`testConnection` resolves a structured `{success, message, latencyMs?}`
result and never throws — on authentication-resolution failure, on network
or handshake error, and on its fixed 10000 ms timeout alike; for a name not
in the registry it instead throws the unknown-connection error. -/
theorem testConnection_structured_result :
    (∀ (ex : String → Bool) (rd : String → String) (home : String)
       (reg : Registry) (n : String) (ev : TCEvent) (conn : SSHConnection),
      findConn reg n = some conn →
      ∃ r : TestResult, testConnectionOp ex rd home reg n ev = Except.ok r) ∧
    (∀ (ex : String → Bool) (rd : String → String) (home : String)
       (reg : Registry) (n : String) (ev : TCEvent),
      findConn reg n = none →
      testConnectionOp ex rd home reg n ev =
        Except.error ("Unknown connection: " ++ n)) := by
  constructor
  · intro ex rd home reg n ev conn h
    unfold testConnectionOp
    rw [h]
    dsimp only
    rcases hg : getConnectConfig ex rd home conn with m | cfg
    · exact ⟨_, rfl⟩
    · exact ⟨_, rfl⟩
  · intro ex rd home reg n ev h
    unfold testConnectionOp
    rw [h]

/-- C1 witness: a registered connection with no credentials and no default
keys on disk (authentication resolution fails) still resolves a structured
result on the timeout event. -/
theorem testConnection_structured_result_witness :
    ∃ r : TestResult,
      testConnectionOp (fun _ => false) (fun _ => "") "/home/u"
        [("web1",
          { name := "web1", host := "h", port := some 22, username := "u",
            privateKeyPath := none, password := none, source := some Source.env })]
        "web1" TCEvent.timeoutFired = Except.ok r :=
  testConnection_structured_result.1 (fun _ => false) (fun _ => "") "/home/u"
    _ "web1" TCEvent.timeoutFired _ rfl

/-- C6: authentication resolution order — (1) a set `privateKeyPath` must
exist on disk and is read, else resolution fails with the key-not-found
error; (2) else a set password is used directly; (3) else the default key
locations (`~/.ssh/id_ed25519` then `~/.ssh/id_rsa`) are probed in order and
the first existing one is read; (4) else resolution fails with the
no-authentication error. -/
theorem auth_resolution_order (ex : String → Bool) (rd : String → String)
    (home : String) (conn : SSHConnection) :
    (∀ p : String, conn.privateKeyPath = some p → ¬ p = "" →
      (ex p = true →
        getConnectConfig ex rd home conn =
          Except.ok { host := conn.host, port := conn.port,
                      username := conn.username,
                      privateKey := some (rd p), password := none }) ∧
      (ex p = false →
        getConnectConfig ex rd home conn =
          Except.error ("Private key not found: " ++ p))) ∧
    (truthyStr conn.privateKeyPath = false → truthyStr conn.password = true →
      getConnectConfig ex rd home conn =
        Except.ok { host := conn.host, port := conn.port,
                    username := conn.username,
                    privateKey := none, password := conn.password }) ∧
    (truthyStr conn.privateKeyPath = false → truthyStr conn.password = false →
      ex (home ++ "/.ssh/id_ed25519") = true →
      getConnectConfig ex rd home conn =
        Except.ok { host := conn.host, port := conn.port,
                    username := conn.username,
                    privateKey := some (rd (home ++ "/.ssh/id_ed25519")),
                    password := none }) ∧
    (truthyStr conn.privateKeyPath = false → truthyStr conn.password = false →
      ex (home ++ "/.ssh/id_ed25519") = false →
      ex (home ++ "/.ssh/id_rsa") = true →
      getConnectConfig ex rd home conn =
        Except.ok { host := conn.host, port := conn.port,
                    username := conn.username,
                    privateKey := some (rd (home ++ "/.ssh/id_rsa")),
                    password := none }) ∧
    (truthyStr conn.privateKeyPath = false → truthyStr conn.password = false →
      ex (home ++ "/.ssh/id_ed25519") = false →
      ex (home ++ "/.ssh/id_rsa") = false →
      getConnectConfig ex rd home conn =
        Except.error
          "No authentication method available. Provide privateKeyPath or password.") := by
  refine ⟨?_, ?_, ?_, ?_, ?_⟩
  · intro p hp hne
    have ht' : truthyStr (some p) = true := by simp [truthyStr, hne]
    constructor
    · intro hex
      unfold getConnectConfig
      rw [hp]
      simp [ht', hex]
    · intro hex
      unfold getConnectConfig
      rw [hp]
      simp [ht', hex]
  · intro hk hpw
    unfold getConnectConfig
    simp [hk, hpw]
  · intro hk hpw h1
    unfold getConnectConfig
    simp [hk, hpw, h1]
  · intro hk hpw h1 h2
    unfold getConnectConfig
    simp [hk, hpw, h1, h2]
  · intro hk hpw h1 h2
    unfold getConnectConfig
    simp [hk, hpw, h1, h2]

/-- C6 witness: with only the RSA default key on disk and a record carrying
no explicit credential, resolution probes ed25519 first, misses, and uses
the RSA key. -/
theorem auth_resolution_order_witness :
    getConnectConfig (fun p => p == "/home/u/.ssh/id_rsa") (fun _ => "RSAKEY")
        "/home/u"
        { name := "x", host := "h", port := some 22, username := "u",
          privateKeyPath := none, password := none, source := none } =
      Except.ok { host := "h", port := some 22, username := "u",
                  privateKey := some "RSAKEY", password := none } :=
  (auth_resolution_order (fun p => p == "/home/u/.ssh/id_rsa") (fun _ => "RSAKEY")
      "/home/u" _).2.2.2.1 rfl rfl (by decide) (by decide)

/-- C5: the remove operation succeeds only for names present in the manual
config: (1) if no config-source record carries the name (it exists only via
env or discovery, or not at all), the handler reports not-found and leaves
both the config and the registry unchanged; (2) `removeConnectionFromConfig`
returns whether anything was removed; (3) when the name is present in the
config the handler reports success and removes exactly the records with that
name from the config. -/
theorem remove_manual_scope :
    (∀ (reload : SSHMCPConfig → Registry) (config : SSHMCPConfig)
       (reg : Registry) (name : String),
      config.connections.any (fun c => c.name == name) = false →
      removeConnectionHandler reload config reg name =
        { success := false, config := config, registry := reg }) ∧
    (∀ (config : SSHMCPConfig) (name : String),
      (removeConnectionFromConfig config name).isSome =
        config.connections.any (fun c => c.name == name)) ∧
    (∀ (reload : SSHMCPConfig → Registry) (config : SSHMCPConfig)
       (reg : Registry) (name : String),
      config.connections.any (fun c => c.name == name) = true →
      (removeConnectionHandler reload config reg name).success = true ∧
      (removeConnectionHandler reload config reg name).config.connections =
        config.connections.filter (fun c => !(c.name == name))) := by
  refine ⟨?_, ?_, ?_⟩
  · intro reload config reg name h
    unfold removeConnectionHandler removeConnectionFromConfig
    simp [h]
  · intro config name
    unfold removeConnectionFromConfig
    by_cases h : config.connections.any (fun c => c.name == name) = true
    · simp [h]
    · have h' : config.connections.any (fun c => c.name == name) = false := by
        simp_all
      simp [h']
  · intro reload config reg name h
    unfold removeConnectionHandler removeConnectionFromConfig
    simp [h]

/-- C5 witness: a config holding only the manual record "a": removing the
env-only name "b" reports not-found and changes nothing; removing "a"
succeeds and empties the manual list. -/
theorem remove_manual_scope_witness :
    removeConnectionHandler (fun _ => [])
        { defaultPrivateKeyPath := none,
          binarylane := { enabled := false, apiToken := none,
                          defaultUsername := "root", defaultPrivateKeyPath := none },
          connections := [{ name := "a", host := "h", port := some 22,
                            username := "u", privateKeyPath := none,
                            password := none }] }
        [("b", { name := "b", host := "h2", port := some 22, username := "u2",
                 privateKeyPath := none, password := none,
                 source := some Source.env })] "b" =
      { success := false,
        config :=
          { defaultPrivateKeyPath := none,
            binarylane := { enabled := false, apiToken := none,
                            defaultUsername := "root", defaultPrivateKeyPath := none },
            connections := [{ name := "a", host := "h", port := some 22,
                              username := "u", privateKeyPath := none,
                              password := none }] },
        registry :=
          [("b", { name := "b", host := "h2", port := some 22, username := "u2",
                   privateKeyPath := none, password := none,
                   source := some Source.env })] } :=
  remove_manual_scope.1 (fun _ => []) _ _ "b" (by decide)

/-- C10 counterexample: a config whose `binarylane.apiToken` is present but
empty redacts to an *absent* token, not to `***`; and a config differing
from it only in that present secret's value redacts to a different output,
refuting the claimed equal-output hyperproperty at these inputs. -/
theorem redact_present_secret_counterexample :
    ({ defaultPrivateKeyPath := none,
       binarylane := { enabled := true, apiToken := some "",
                       defaultUsername := "root", defaultPrivateKeyPath := none },
       connections := [] } : SSHMCPConfig).binarylane.apiToken.isSome = true ∧
    (redactConfig
      { defaultPrivateKeyPath := none,
        binarylane := { enabled := true, apiToken := some "",
                        defaultUsername := "root", defaultPrivateKeyPath := none },
        connections := [] }).binarylane.apiToken = none ∧
    redactConfig
        { defaultPrivateKeyPath := none,
          binarylane := { enabled := true, apiToken := some "",
                          defaultUsername := "root", defaultPrivateKeyPath := none },
          connections := [] } ≠
      redactConfig
        { defaultPrivateKeyPath := none,
          binarylane := { enabled := true, apiToken := some "tok",
                          defaultUsername := "root", defaultPrivateKeyPath := none },
          connections := [] } := by
  refine ⟨rfl, rfl, ?_⟩
  decide

lemma redactConn_eq_rebuild (c : ConnectionConfig) :
    redactConn c = rebuildConn (connShape c) := rfl

lemma map_redactConn_shape (l : List ConnectionConfig) :
    l.map redactConn = (l.map connShape).map rebuildConn := by
  rw [List.map_map]
  apply List.map_congr_left
  intro c _
  exact redactConn_eq_rebuild c

lemma redactConfig_shape_determined (c1 c2 : SSHMCPConfig)
    (h : configShape c1 = configShape c2) : redactConfig c1 = redactConfig c2 := by
  cases c1 with
  | mk d1 b1 l1 =>
    cases c2 with
    | mk d2 b2 l2 =>
      cases b1 with
      | mk e1 t1 u1 k1 =>
        cases b2 with
        | mk e2 t2 u2 k2 =>
          simp only [configShape, ConfigShape.mk.injEq] at h
          obtain ⟨h1, h2, h3, h4, h5, h6⟩ := h
          subst h1; subst h2; subst h3; subst h4
          simp only [redactConfig]
          rw [h5, map_redactConn_shape l1, map_redactConn_shape l2, h6]

/-- C10 (amended): `redactConfig` preserves every non-secret field; a
present *non-empty* `binarylane.apiToken` or connection password is replaced
by `***` while an absent or present-but-empty secret becomes absent; the
output's secret fields are therefore always absent or `***` (so `get_config`
never reveals a secret value); and any two configs agreeing on all
non-secret fields and on the truthiness of each secret redact to equal
outputs. -/
theorem redact_config_masks_secrets :
    (∀ config : SSHMCPConfig,
      (redactConfig config).defaultPrivateKeyPath = config.defaultPrivateKeyPath ∧
      (redactConfig config).binarylane.enabled = config.binarylane.enabled ∧
      (redactConfig config).binarylane.defaultUsername =
        config.binarylane.defaultUsername ∧
      (redactConfig config).binarylane.defaultPrivateKeyPath =
        config.binarylane.defaultPrivateKeyPath ∧
      (redactConfig config).binarylane.apiToken =
        (if truthyStr config.binarylane.apiToken then some "***" else none) ∧
      (redactConfig config).connections = config.connections.map redactConn) ∧
    (∀ config : SSHMCPConfig,
      ((redactConfig config).binarylane.apiToken = none ∨
        (redactConfig config).binarylane.apiToken = some "***") ∧
      (∀ c ∈ (redactConfig config).connections,
        c.password = none ∨ c.password = some "***")) ∧
    (∀ c1 c2 : SSHMCPConfig, configShape c1 = configShape c2 →
      redactConfig c1 = redactConfig c2) := by
  refine ⟨?_, ?_, redactConfig_shape_determined⟩
  · intro config
    exact ⟨rfl, rfl, rfl, rfl, rfl, rfl⟩
  · intro config
    constructor
    · by_cases h : truthyStr config.binarylane.apiToken = true
      · right; simp [redactConfig, h]
      · left; simp [redactConfig, h]
    · intro c hc
      simp only [redactConfig, List.mem_map] at hc
      obtain ⟨c0, _, hc0⟩ := hc
      subst hc0
      by_cases h : truthyStr c0.password = true
      · right; simp [redactConn, h]
      · left; simp [redactConn, h]

/-- C10 witness: two configs differing only in the values of their present
non-empty secrets redact to equal outputs, and the redacted password is
`***`. -/
theorem redact_config_masks_secrets_witness :
    redactConfig
        { defaultPrivateKeyPath := some "~/.ssh/id_ed25519",
          binarylane := { enabled := true, apiToken := some "tok-1",
                          defaultUsername := "root", defaultPrivateKeyPath := none },
          connections := [{ name := "a", host := "h", port := some 22,
                            username := "u", privateKeyPath := none,
                            password := some "hunter2" }] } =
      redactConfig
        { defaultPrivateKeyPath := some "~/.ssh/id_ed25519",
          binarylane := { enabled := true, apiToken := some "tok-2",
                          defaultUsername := "root", defaultPrivateKeyPath := none },
          connections := [{ name := "a", host := "h", port := some 22,
                            username := "u", privateKeyPath := none,
                            password := some "s3cret" }] } :=
  redact_config_masks_secrets.2.2 _ _ (by decide)

end SshMcp
